import Mathlib

/-!
Shallow embedding of the syzygy ASan runtime memory-safety checker.

The repository sources at hand are `syzygy/agent/asan/block_utils.cc`
(the `IsBlockCorrupt` helper) and the runtime unit tests
(`asan_rtl_unittest.cc`).  The access-classification engine, shadow state
map, quarantine manager and corruption scanner themselves are exercised by
those tests but their implementation files are not part of the sources, so
they are modelled from the specification (sections 4.2-4.6, 7 and 8 of the
design document) as indicated on each definition.
-/

set_option maxHeartbeats 1000000

/-- Modelled from the spec: per-granule shadow state of the Shadow State Map
(section 4.3): addressable live user data, left/right redzone of a live
block, explicitly freed memory, or never-tracked memory. -/
inductive ShadowState where
  | addressable
  | leftRedzone
  | rightRedzone
  | freed
  | untracked
  deriving DecidableEq

/-- Modelled from the spec: the error taxonomy of section 7. -/
inductive BadAccessKind where
  | heapBufferOverflow
  | heapBufferUnderflow
  | useAfterFree
  | doubleFree
  | corruptBlock
  | wildAccess
  | invalidAddress
  | unknownBadAccess
  deriving DecidableEq

/-- Result of one Access Checker invocation: OK, or a classified violation. -/
inductive CheckResult where
  | ok
  | bad (kind : BadAccessKind)
  deriving DecidableEq

/-- Modelled from the spec: the boundary of any plausible heap region.
Addresses at or above it (very high, e.g. 0x80000000, section 8) have no
plausible relation to any tracked allocation and classify as wild. -/
def kWildAccessThreshold : Nat := 2147483648

/-- Modelled from the spec: the single-element check of section 4.6.
Decision order: (a) an address outside any plausible heap region is a
WILD_ACCESS; (b) the null address is an INVALID_ADDRESS; (c) otherwise the
Shadow State Map is consulted: addressable is OK, freed is USE_AFTER_FREE,
a left redzone is HEAP_BUFFER_UNDERFLOW, a right redzone (or beyond the
body) is HEAP_BUFFER_OVERFLOW, and never-tracked memory is WILD_ACCESS
(section 4.3). -/
def checkSingle (shadow : Nat → ShadowState) (addr : Nat) : CheckResult :=
  if kWildAccessThreshold ≤ addr then .bad .wildAccess
  else if addr = 0 then .bad .invalidAddress
  else
    match shadow addr with
    | .addressable => .ok
    | .freed => .bad .useAfterFree
    | .leftRedzone => .bad .heapBufferUnderflow
    | .rightRedzone => .bad .heapBufferOverflow
    | .untracked => .bad .wildAccess

/-- Modelled from the spec: the per-width checker variants exposed to the
instrumentation layer (section 6; widths 1, 2 and 4 bytes).  The decision
procedure of section 4.6 depends only on the access address, so every
width variant classifies the address the same way. -/
def checkAccess (width : Nat) (shadow : Nat → ShadowState) (addr : Nat) :
    CheckResult :=
  checkSingle shadow addr

/-- Modelled from the spec: the Block Layout geometry of one live
allocation (section 4.1): a user body of `bodySize` bytes starting at
`bodyStart`, flanked by a left and a right redzone. -/
structure LiveBlock where
  bodyStart : Nat
  bodySize : Nat
  leftRedzoneSize : Nat
  rightRedzoneSize : Nat
  deriving DecidableEq

/-- End of the user body (one past the last body byte). -/
def LiveBlock.bodyEnd (b : LiveBlock) : Nat := b.bodyStart + b.bodySize

/-- Modelled from the spec: the Shadow State Map contents for one live
(ALLOCATED) block (sections 4.3 and 2): the body is addressable, the
flanking redzones are marked as redzone on their respective sides, and
everything else is untracked. -/
def liveBlockShadow (b : LiveBlock) (addr : Nat) : ShadowState :=
  if b.bodyStart ≤ addr ∧ addr < b.bodyEnd then .addressable
  else if b.bodyStart - b.leftRedzoneSize ≤ addr ∧ addr < b.bodyStart then
    .leftRedzone
  else if b.bodyEnd ≤ addr ∧ addr < b.bodyEnd + b.rightRedzoneSize then
    .rightRedzone
  else .untracked

/-- A live block sits in the plausible heap region, away from the null
page: its left redzone starts strictly above address 0 and its right
redzone ends below the wild-access boundary. -/
def LiveBlock.wellPlaced (b : LiveBlock) : Prop :=
  b.leftRedzoneSize ≤ b.bodyStart ∧
  0 < b.bodyStart - b.leftRedzoneSize ∧
  b.bodyEnd + b.rightRedzoneSize < kWildAccessThreshold

/-- A check strictly inside the body of a well-placed live block is OK. -/
theorem liveBlock_body_ok (b : LiveBlock) (hb : b.wellPlaced) (addr : Nat)
    (h1 : b.bodyStart ≤ addr) (h2 : addr < b.bodyEnd) :
    checkSingle (liveBlockShadow b) addr = .ok := by
  obtain ⟨hlz, hpos, hhi⟩ := hb
  unfold LiveBlock.bodyEnd at hhi h2
  rw [checkSingle, if_neg (by omega), if_neg (by omega),
    liveBlockShadow, if_pos (by unfold LiveBlock.bodyEnd; omega)]

/-- A check in the left redzone of a well-placed live block is a
HEAP_BUFFER_UNDERFLOW. -/
theorem liveBlock_left_underflow (b : LiveBlock) (hb : b.wellPlaced)
    (addr : Nat) (h1 : b.bodyStart - b.leftRedzoneSize ≤ addr)
    (h2 : addr < b.bodyStart) :
    checkSingle (liveBlockShadow b) addr = .bad .heapBufferUnderflow := by
  obtain ⟨hlz, hpos, hhi⟩ := hb
  unfold LiveBlock.bodyEnd at hhi
  rw [checkSingle, if_neg (by omega), if_neg (by omega),
    liveBlockShadow, if_neg (by unfold LiveBlock.bodyEnd; omega),
    if_pos (by omega)]

/-- A check in the right redzone of a well-placed live block is a
HEAP_BUFFER_OVERFLOW. -/
theorem liveBlock_right_overflow (b : LiveBlock) (hb : b.wellPlaced)
    (addr : Nat) (h1 : b.bodyEnd ≤ addr)
    (h2 : addr < b.bodyEnd + b.rightRedzoneSize) :
    checkSingle (liveBlockShadow b) addr = .bad .heapBufferOverflow := by
  obtain ⟨hlz, hpos, hhi⟩ := hb
  unfold LiveBlock.bodyEnd at hhi h1 h2
  rw [checkSingle, if_neg (by omega), if_neg (by omega),
    liveBlockShadow, if_neg (by unfold LiveBlock.bodyEnd; omega),
    if_neg (by omega), if_pos (by unfold LiveBlock.bodyEnd; omega)]

/-- C4: for a live block, a single-element check of any supported width is
OK strictly inside the body, HEAP_BUFFER_UNDERFLOW from body-start minus 1
back through the left redzone, and HEAP_BUFFER_OVERFLOW from body-end
through the right redzone. -/
theorem c4_live_block_classification (w : Nat) (b : LiveBlock)
    (hb : b.wellPlaced) :
    (∀ addr, b.bodyStart ≤ addr → addr < b.bodyEnd →
      checkAccess w (liveBlockShadow b) addr = .ok) ∧
    (∀ addr, b.bodyStart - b.leftRedzoneSize ≤ addr → addr < b.bodyStart →
      checkAccess w (liveBlockShadow b) addr = .bad .heapBufferUnderflow) ∧
    (∀ addr, b.bodyEnd ≤ addr → addr < b.bodyEnd + b.rightRedzoneSize →
      checkAccess w (liveBlockShadow b) addr = .bad .heapBufferOverflow) :=
  ⟨fun addr h1 h2 => liveBlock_body_ok b hb addr h1 h2,
   fun addr h1 h2 => liveBlock_left_underflow b hb addr h1 h2,
   fun addr h1 h2 => liveBlock_right_overflow b hb addr h1 h2⟩

/-- Witness for C4 at a concrete block: body `[100, 113)` with redzones of
16 bytes on each side, probing addresses 105, 99 and 113. -/
theorem c4_live_block_classification_witness :
    LiveBlock.wellPlaced ⟨100, 13, 16, 16⟩ ∧
    checkAccess 4 (liveBlockShadow ⟨100, 13, 16, 16⟩) 105 = .ok ∧
    checkAccess 4 (liveBlockShadow ⟨100, 13, 16, 16⟩) 99 =
      .bad .heapBufferUnderflow ∧
    checkAccess 4 (liveBlockShadow ⟨100, 13, 16, 16⟩) 113 =
      .bad .heapBufferOverflow := by
  have hwp : LiveBlock.wellPlaced ⟨100, 13, 16, 16⟩ := by
    refine ⟨by decide, by decide, ?_⟩
    show 100 + 13 + 16 < kWildAccessThreshold
    decide
  have h := c4_live_block_classification 4 ⟨100, 13, 16, 16⟩ hwp
  exact ⟨hwp, h.1 105 (by decide) (by decide),
    h.2.1 99 (by decide) (by decide), h.2.2 113 (by decide) (by decide)⟩

/-- C9: the wild-region test precedes the null test: an address outside
any plausible heap region with no tracked block nearby classifies as
WILD_ACCESS, while the null address classifies as INVALID_ADDRESS. -/
theorem c9_wild_and_null_classification (shadow : Nat → ShadowState)
    (h : shadow 2147483648 = .untracked) :
    checkSingle shadow 2147483648 = .bad .wildAccess ∧
    checkSingle shadow 0 = .bad .invalidAddress := by
  constructor
  · rw [checkSingle, if_pos (by decide)]
  · rw [checkSingle, if_neg (by decide), if_pos rfl]

/-- Witness for C9 on the everywhere-untracked shadow map. -/
theorem c9_wild_and_null_classification_witness :
    (fun _ : Nat => ShadowState.untracked) 2147483648 = .untracked ∧
    checkSingle (fun _ => ShadowState.untracked) 2147483648 =
      .bad .wildAccess ∧
    checkSingle (fun _ => ShadowState.untracked) 0 =
      .bad .invalidAddress := by
  have h := c9_wild_and_null_classification
    (fun _ => ShadowState.untracked) rfl
  exact ⟨rfl, h.1, h.2⟩

/-- Modelled from the spec: traversal direction of a bulk directional
check (section 4.6): FORWARD pointers point at the first touched element
and advance, BACKWARD pointers point at the last touched element and
retreat. -/
inductive Direction where
  | forward
  | backward
  deriving DecidableEq

/-- Modelled from the spec: the kind of emulated bulk memory instruction
(section 4.6): memory-move, memory-compare, or memory-fill. -/
inductive OpKind where
  | moveOp
  | compareOp
  | fillOp
  deriving DecidableEq

/-- Advance a pointer by one element of `w` bytes in direction `dir`. -/
def stepAddr (dir : Direction) (w a : Nat) : Nat :=
  match dir with
  | .forward => a + w
  | .backward => a - w

/-- Address of the element at index `i` (in touch order) starting from
pointer `a`, for element width `w`. -/
def addrAt (dir : Direction) (w a i : Nat) : Nat :=
  match dir with
  | .forward => a + i * w
  | .backward => a - i * w

/-- Modelled from the spec: the probing loop of the bulk directional check
(section 4.6 and the iterator design note of section 9).  With `n`
elements left it probes, in touch order, the source element (except for
fill-type operations, which touch only the destination — see the stos
tests in asan_rtl_unittest.cc) and then the destination element, each
classified as in the single-element case; the first invalid element
determines the reported classification.  For compare-type operations the
probing stops right after a mismatching element, reporting OK, because
real hardware halts the comparison there.  Returns the classification and
the ordered list of probed element addresses. -/
def specialCheckFrom (op : OpKind) (dir : Direction) (w : Nat)
    (shadow : Nat → ShadowState) (mem : Nat → Nat) :
    Nat → Nat → Nat → CheckResult × List Nat
  | 0, _, _ => (.ok, [])
  | n + 1, dst, src =>
    if op = .fillOp then
      match checkSingle shadow dst with
      | .bad k => (.bad k, [dst])
      | .ok =>
        let rest := specialCheckFrom op dir w shadow mem n
          (stepAddr dir w dst) (stepAddr dir w src)
        (rest.1, dst :: rest.2)
    else
      match checkSingle shadow src with
      | .bad k => (.bad k, [src])
      | .ok =>
        match checkSingle shadow dst with
        | .bad k => (.bad k, [src, dst])
        | .ok =>
          if op = .compareOp ∧ mem src ≠ mem dst then (.ok, [src, dst])
          else
            let rest := specialCheckFrom op dir w shadow mem n
              (stepAddr dir w dst) (stepAddr dir w src)
            (rest.1, src :: dst :: rest.2)

/-- Modelled from the spec: classification verdict of a bulk directional
check with declared repeat count `count` (section 4.6). -/
def specialCheck (op : OpKind) (dir : Direction) (w : Nat)
    (shadow : Nat → ShadowState) (mem : Nat → Nat)
    (dst src count : Nat) : CheckResult :=
  (specialCheckFrom op dir w shadow mem count dst src).1

/-- Modelled from the spec: the ordered list of element addresses a bulk
directional check actually probes (section 4.6). -/
def specialCheckTouched (op : OpKind) (dir : Direction) (w : Nat)
    (shadow : Nat → ShadowState) (mem : Nat → Nat)
    (dst src count : Nat) : List Nat :=
  (specialCheckFrom op dir w shadow mem count dst src).2

theorem addrAt_zero (dir : Direction) (w a : Nat) : addrAt dir w a 0 = a := by
  cases dir <;> simp [addrAt]

theorem addrAt_step (dir : Direction) (w a i : Nat) :
    addrAt dir w (stepAddr dir w a) i = addrAt dir w a (i + 1) := by
  cases dir
  · show a + w + i * w = a + (i + 1) * w
    ring
  · show a - w - i * w = a - (i + 1) * w
    rw [Nat.sub_sub]
    congr 1
    ring

/-- If every element of the declared range is classified OK on both
operands, the bulk check reports OK, in either direction. -/
theorem specialCheckFrom_all_ok (op : OpKind) (dir : Direction) (w : Nat)
    (shadow : Nat → ShadowState) (mem : Nat → Nat) :
    ∀ n dst src,
      (∀ i, i < n → checkSingle shadow (addrAt dir w src i) = .ok ∧
        checkSingle shadow (addrAt dir w dst i) = .ok) →
      (specialCheckFrom op dir w shadow mem n dst src).1 = .ok := by
  intro n
  induction n with
  | zero => intro dst src _; rfl
  | succ n ih =>
    intro dst src h
    have hsrc0 : checkSingle shadow src = .ok := by
      have := (h 0 (Nat.succ_pos n)).1
      rwa [addrAt_zero] at this
    have hdst0 : checkSingle shadow dst = .ok := by
      have := (h 0 (Nat.succ_pos n)).2
      rwa [addrAt_zero] at this
    have hrec : (specialCheckFrom op dir w shadow mem n
        (stepAddr dir w dst) (stepAddr dir w src)).1 = .ok := by
      apply ih
      intro i hi
      rw [addrAt_step, addrAt_step]
      exact h (i + 1) (by omega)
    by_cases hf : op = OpKind.fillOp
    · rw [specialCheckFrom, if_pos hf, hdst0]
      exact hrec
    · rw [specialCheckFrom, if_neg hf, hsrc0, hdst0]
      by_cases hc : op = OpKind.compareOp ∧ mem src ≠ mem dst
      · rw [if_pos hc]
      · rw [if_neg hc]
        exact hrec

/-- C2: a bulk directional check of any operation kind, direction and
width with a declared repeat count of zero probes no memory at all and
reports OK, regardless of the declared destination and source
addresses. -/
theorem c2_zero_count_noop (op : OpKind) (dir : Direction) (w : Nat)
    (shadow : Nat → ShadowState) (mem : Nat → Nat) (dst src : Nat) :
    specialCheck op dir w shadow mem dst src 0 = .ok ∧
    specialCheckTouched op dir w shadow mem dst src 0 = [] :=
  ⟨rfl, rfl⟩

theorem backward_start_shift (a w n i : Nat) (hi : i < n) :
    a + (n - 1) * w - i * w = a + (n - 1 - i) * w := by
  have hle : i * w ≤ (n - 1) * w := Nat.mul_le_mul_right w (by omega)
  rw [Nat.add_sub_assoc hle, ← Nat.sub_mul]

/-- C3: over an element set in which every source and destination element
classifies OK, the backward-direction bulk check whose pointers start at
the last touched element produces the same verdict as the forward check
over the same logical element set. -/
theorem c3_backward_matches_forward (op : OpKind) (w : Nat)
    (shadow : Nat → ShadowState) (mem : Nat → Nat) (dst src n : Nat)
    (hn : 0 < n)
    (h : ∀ i, i < n → checkSingle shadow (src + i * w) = .ok ∧
      checkSingle shadow (dst + i * w) = .ok) :
    specialCheck op .backward w shadow mem (dst + (n - 1) * w)
        (src + (n - 1) * w) n =
      specialCheck op .forward w shadow mem dst src n := by
  have hfwd : specialCheck op .forward w shadow mem dst src n = .ok := by
    unfold specialCheck
    apply specialCheckFrom_all_ok
    intro i hi
    exact h i hi
  have hbwd : specialCheck op .backward w shadow mem (dst + (n - 1) * w)
      (src + (n - 1) * w) n = .ok := by
    unfold specialCheck
    apply specialCheckFrom_all_ok
    intro i hi
    show checkSingle shadow (src + (n - 1) * w - i * w) = .ok ∧
      checkSingle shadow (dst + (n - 1) * w - i * w) = .ok
    rw [backward_start_shift src w n i hi, backward_start_shift dst w n i hi]
    exact h (n - 1 - i) (by omega)
  rw [hfwd, hbwd]

/-- Witness for C3: two live 20-byte buffers at 100 and 130 inside an
addressable region, 4-byte elements, count 5, for the compare kind. -/
theorem c3_backward_matches_forward_witness :
    (0 < 5 ∧
      ∀ i, i < 5 →
        checkSingle (fun a => if 100 ≤ a ∧ a < 160 then
          ShadowState.addressable else ShadowState.untracked)
          (100 + i * 4) = .ok ∧
        checkSingle (fun a => if 100 ≤ a ∧ a < 160 then
          ShadowState.addressable else ShadowState.untracked)
          (130 + i * 4) = .ok) ∧
    specialCheck .compareOp .backward 4
        (fun a => if 100 ≤ a ∧ a < 160 then ShadowState.addressable
          else ShadowState.untracked) (fun _ => 0) (130 + 4 * 4)
        (100 + 4 * 4) 5 =
      specialCheck .compareOp .forward 4
        (fun a => if 100 ≤ a ∧ a < 160 then ShadowState.addressable
          else ShadowState.untracked) (fun _ => 0) 130 100 5 := by
  refine ⟨⟨by decide, by decide⟩, ?_⟩
  exact c3_backward_matches_forward .compareOp 4 _ _ 130 100 5 (by decide)
    (by decide)

theorem forward_start_shift (a w i : Nat) :
    a + w + i * w = a + (i + 1) * w := by
  ring

/-- C1: a forward bulk compare whose operands mismatch at element offset
`k`, `k` strictly below the declared count, with every element up to and
including offset `k` classified OK on both operands, reports OK — even
when the declared count would reach elements that are not OK. -/
theorem c1_compare_early_exit (w : Nat) (shadow : Nat → ShadowState)
    (mem : Nat → Nat) :
    ∀ k n dst src, k < n →
      (∀ i, i ≤ k → checkSingle shadow (src + i * w) = .ok ∧
        checkSingle shadow (dst + i * w) = .ok) →
      mem (src + k * w) ≠ mem (dst + k * w) →
      specialCheck .compareOp .forward w shadow mem dst src n = .ok := by
  intro k
  induction k with
  | zero =>
    intro n dst src hk hok hmm
    obtain ⟨m, rfl⟩ : ∃ m, n = m + 1 := ⟨n - 1, by omega⟩
    have hsrc0 : checkSingle shadow src = .ok := by
      have := (hok 0 (Nat.le_refl 0)).1
      simpa using this
    have hdst0 : checkSingle shadow dst = .ok := by
      have := (hok 0 (Nat.le_refl 0)).2
      simpa using this
    have hmm0 : mem src ≠ mem dst := by simpa using hmm
    unfold specialCheck
    rw [specialCheckFrom, if_neg (by decide), hsrc0, hdst0,
      if_pos ⟨rfl, hmm0⟩]
  | succ k ih =>
    intro n dst src hk hok hmm
    obtain ⟨m, rfl⟩ : ∃ m, n = m + 1 := ⟨n - 1, by omega⟩
    have hsrc0 : checkSingle shadow src = .ok := by
      have := (hok 0 (by omega)).1
      simpa using this
    have hdst0 : checkSingle shadow dst = .ok := by
      have := (hok 0 (by omega)).2
      simpa using this
    unfold specialCheck
    rw [specialCheckFrom, if_neg (by decide), hsrc0, hdst0]
    by_cases hc : mem src ≠ mem dst
    · rw [if_pos ⟨rfl, hc⟩]
    · rw [if_neg (fun hand => hc hand.2)]
      show specialCheck .compareOp .forward w shadow mem (dst + w)
        (src + w) m = .ok
      apply ih m (dst + w) (src + w) (by omega)
      · intro i hi
        rw [forward_start_shift src w i, forward_start_shift dst w i]
        exact hok (i + 1) (by omega)
      · rw [forward_start_shift src w k, forward_start_shift dst w k]
        exact hmm

/-- Witness for C1: byte-wide compare of two 2-byte live spots at 10 and
50, values mismatching at offset 1, declared count 14 reaching far past
both spots (offsets 2 and beyond are untracked, hence not OK), yet the
verdict is OK. -/
theorem c1_compare_early_exit_witness :
    ((1 : Nat) < 14 ∧
      (∀ i, i ≤ 1 →
        checkSingle (fun a => if (10 ≤ a ∧ a < 12) ∨ (50 ≤ a ∧ a < 52) then
          ShadowState.addressable else ShadowState.untracked)
          (10 + i * 1) = .ok ∧
        checkSingle (fun a => if (10 ≤ a ∧ a < 12) ∨ (50 ≤ a ∧ a < 52) then
          ShadowState.addressable else ShadowState.untracked)
          (50 + i * 1) = .ok) ∧
      (fun a => if a = 11 then 1 else 0) (10 + 1 * 1) ≠
        (fun a => if a = 11 then 1 else 0) (50 + 1 * 1)) ∧
    specialCheck .compareOp .forward 1
      (fun a => if (10 ≤ a ∧ a < 12) ∨ (50 ≤ a ∧ a < 52) then
        ShadowState.addressable else ShadowState.untracked)
      (fun a => if a = 11 then 1 else 0) 50 10 14 = .ok := by
  refine ⟨⟨by decide, by decide, by decide⟩, ?_⟩
  exact c1_compare_early_exit 1 _ _ 1 14 50 10 (by decide) (by decide)
    (by decide)

/-- A fill-type bulk check whose destination elements all classify OK
reports OK, in either direction, whatever the source address. -/
theorem specialCheckFrom_fill_ok (dir : Direction) (w : Nat)
    (shadow : Nat → ShadowState) (mem : Nat → Nat) :
    ∀ n dst src,
      (∀ i, i < n → checkSingle shadow (addrAt dir w dst i) = .ok) →
      (specialCheckFrom .fillOp dir w shadow mem n dst src).1 = .ok := by
  intro n
  induction n with
  | zero => intro dst src _; rfl
  | succ n ih =>
    intro dst src h
    have hdst0 : checkSingle shadow dst = .ok := by
      have := h 0 (Nat.succ_pos n)
      rwa [addrAt_zero] at this
    rw [specialCheckFrom, if_pos rfl, hdst0]
    show (specialCheckFrom .fillOp dir w shadow mem n (stepAddr dir w dst)
      (stepAddr dir w src)).1 = .ok
    apply ih
    intro i hi
    rw [addrAt_step]
    exact h (i + 1) (by omega)

/-- C10: a fill-type bulk check classifies only its destination operand:
with an invalid source but all destination elements inside a live block's
body it reports OK, while a destination one element before the body
reports HEAP_BUFFER_UNDERFLOW and a destination at body-end reports
HEAP_BUFFER_OVERFLOW, whatever the source. -/
theorem c10_fill_destination_only (w : Nat) (b : LiveBlock)
    (hb : b.wellPlaced) (mem : Nat → Nat) (src n : Nat) (hn : 0 < n)
    (hw : 0 < w) (hwl : w ≤ b.leftRedzoneSize)
    (hrz : 0 < b.rightRedzoneSize) :
    (∀ dst, checkSingle (liveBlockShadow b) src ≠ .ok →
      (∀ i, i < n → checkSingle (liveBlockShadow b) (dst + i * w) = .ok) →
      specialCheck .fillOp .forward w (liveBlockShadow b) mem dst src n =
        .ok) ∧
    specialCheck .fillOp .forward w (liveBlockShadow b) mem
      (b.bodyStart - w) src n = .bad .heapBufferUnderflow ∧
    specialCheck .fillOp .forward w (liveBlockShadow b) mem
      b.bodyEnd src n = .bad .heapBufferOverflow := by
  have hlz := hb.1
  have hpos := hb.2.1
  refine ⟨?_, ?_, ?_⟩
  · intro dst hsrc hdst
    unfold specialCheck
    apply specialCheckFrom_fill_ok
    intro i hi
    exact hdst i hi
  · have hbad : checkSingle (liveBlockShadow b) (b.bodyStart - w) =
        .bad .heapBufferUnderflow :=
      liveBlock_left_underflow b hb (b.bodyStart - w) (by omega) (by omega)
    obtain ⟨m, rfl⟩ : ∃ m, n = m + 1 := ⟨n - 1, by omega⟩
    unfold specialCheck
    rw [specialCheckFrom, if_pos rfl, hbad]
  · have hbad : checkSingle (liveBlockShadow b) b.bodyEnd =
        .bad .heapBufferOverflow :=
      liveBlock_right_overflow b hb b.bodyEnd (Nat.le_refl _) (by omega)
    obtain ⟨m, rfl⟩ : ∃ m, n = m + 1 := ⟨n - 1, by omega⟩
    unfold specialCheck
    rw [specialCheckFrom, if_pos rfl, hbad]

/-- Witness for C10 on the block with body `[100, 113)` and 16-byte
redzones: a fill of 3 elements of width 4 with source at 96 (one element
before the body, itself not OK) and destination at 100 is OK, while
destinations 96 and 113 report underflow and overflow. -/
theorem c10_fill_destination_only_witness :
    (LiveBlock.wellPlaced ⟨100, 13, 16, 16⟩ ∧ (0 : Nat) < 3 ∧
      (0 : Nat) < 4 ∧ (4 : Nat) ≤ 16 ∧ (0 : Nat) < 16 ∧
      checkSingle (liveBlockShadow ⟨100, 13, 16, 16⟩) 96 ≠ .ok ∧
      (∀ i, i < 3 →
        checkSingle (liveBlockShadow ⟨100, 13, 16, 16⟩) (100 + i * 4) =
          .ok)) ∧
    specialCheck .fillOp .forward 4 (liveBlockShadow ⟨100, 13, 16, 16⟩)
      (fun _ => 0) 100 96 3 = .ok ∧
    specialCheck .fillOp .forward 4 (liveBlockShadow ⟨100, 13, 16, 16⟩)
      (fun _ => 0) 96 96 3 = .bad .heapBufferUnderflow ∧
    specialCheck .fillOp .forward 4 (liveBlockShadow ⟨100, 13, 16, 16⟩)
      (fun _ => 0) 113 96 3 = .bad .heapBufferOverflow := by
  have hwp : LiveBlock.wellPlaced ⟨100, 13, 16, 16⟩ := by
    refine ⟨by decide, by decide, ?_⟩
    show 100 + 13 + 16 < kWildAccessThreshold
    decide
  have h := c10_fill_destination_only 4 ⟨100, 13, 16, 16⟩ hwp (fun _ => 0)
    96 3 (by decide) (by decide) (by decide) (by decide)
  exact ⟨⟨hwp, by decide, by decide, by decide, by decide, by decide,
    by decide⟩, h.1 100 (by decide) (by decide), h.2.1, h.2.2⟩

/-- Modelled from the spec: the lifecycle state of a tracked block
(section 3): ALLOCATED, then QUARANTINED on free, then RELEASED on
quarantine eviction. -/
inductive BlockState where
  | allocated
  | quarantined
  | released
  deriving DecidableEq

/-- Modelled from the spec: one tracked heap block as seen by the free
path (sections 3 and 4.4): its layout geometry, lifecycle state, and
whether its checksum/magic validate. -/
structure HeapBlock where
  layout : LiveBlock
  state : BlockState
  checksumOk : Bool
  deriving DecidableEq

/-- Modelled from the spec: the outcome values of PrepareFree
(section 6). -/
inductive FreeOutcome where
  | freeOk
  | doubleFree
  | corruptBlock
  deriving DecidableEq

/-- Modelled from the spec: PrepareFree / quarantine Enqueue (sections 4.4,
6 and 7): the checksum/magic is validated first, failing with
CORRUPT_BLOCK; a block whose state is not ALLOCATED at the time of free
fails with DOUBLE_FREE; otherwise the block transitions to QUARANTINED and
enters the quarantine list.  The operation is a total function returning
an outcome value — it never raises a fault or terminates the process —
and on failure the block and the quarantine are left unchanged. -/
def prepareFree (b : HeapBlock) (q : List Nat) :
    FreeOutcome × HeapBlock × List Nat :=
  if b.checksumOk = false then (.corruptBlock, b, q)
  else if b.state ≠ .allocated then (.doubleFree, b, q)
  else (.freeOk, { b with state := .quarantined }, b.layout.bodyStart :: q)

/-- Modelled from the spec: the Shadow State Map contents for a tracked
block in any lifecycle state (section 4.3 and the data flow of section 2):
a live block shows its body and redzones, and once freed the block's whole
range is marked freed, atomically with the state transition. -/
def blockShadow (b : HeapBlock) (addr : Nat) : ShadowState :=
  match b.state with
  | .allocated => liveBlockShadow b.layout addr
  | _ =>
    if b.layout.bodyStart - b.layout.leftRedzoneSize ≤ addr ∧
        addr < b.layout.bodyEnd + b.layout.rightRedzoneSize then .freed
    else .untracked

/-- C7: a second PrepareFree on an already-freed block returns the
DOUBLE_FREE outcome, leaves the block out of the quarantine (the
quarantine list and the block are unchanged), and completes by returning
that failure indicator. -/
theorem c7_double_free_outcome (b : HeapBlock) (q : List Nat)
    (hstate : b.state = .allocated) (hsum : b.checksumOk = true) :
    (prepareFree b q).1 = .freeOk ∧
    prepareFree (prepareFree b q).2.1 (prepareFree b q).2.2 =
      (.doubleFree, (prepareFree b q).2.1, (prepareFree b q).2.2) := by
  have hfree : prepareFree b q =
      (.freeOk, { b with state := .quarantined },
        b.layout.bodyStart :: q) := by
    rw [prepareFree, if_neg (by simp [hsum]), if_neg (by simp [hstate])]
  have hsecond : prepareFree { b with state := .quarantined }
      (b.layout.bodyStart :: q) =
      (.doubleFree, { b with state := .quarantined },
        b.layout.bodyStart :: q) := by
    rw [prepareFree, if_neg (by simp [hsum]), if_pos (by simp)]
  rw [hfree]
  exact ⟨rfl, hsecond⟩

/-- Witness for C7 on a concrete live block with a valid checksum. -/
theorem c7_double_free_outcome_witness :
    (HeapBlock.state ⟨⟨100, 13, 16, 16⟩, .allocated, true⟩ = .allocated ∧
      HeapBlock.checksumOk ⟨⟨100, 13, 16, 16⟩, .allocated, true⟩ = true) ∧
    (prepareFree ⟨⟨100, 13, 16, 16⟩, .allocated, true⟩ []).1 = .freeOk ∧
    prepareFree (prepareFree ⟨⟨100, 13, 16, 16⟩, .allocated, true⟩ []).2.1
        (prepareFree ⟨⟨100, 13, 16, 16⟩, .allocated, true⟩ []).2.2 =
      (.doubleFree,
        (prepareFree ⟨⟨100, 13, 16, 16⟩, .allocated, true⟩ []).2.1,
        (prepareFree ⟨⟨100, 13, 16, 16⟩, .allocated, true⟩ []).2.2) := by
  have h := c7_double_free_outcome ⟨⟨100, 13, 16, 16⟩, .allocated, true⟩ []
    rfl rfl
  exact ⟨⟨rfl, rfl⟩, h.1, h.2⟩

/-- C8: once PrepareFree has succeeded on a live block, every subsequent
single-element check at any address of the block's former body classifies
as USE_AFTER_FREE. -/
theorem c8_use_after_free (b : HeapBlock) (q : List Nat)
    (hwp : b.layout.wellPlaced) (hstate : b.state = .allocated)
    (hsum : b.checksumOk = true) :
    (prepareFree b q).1 = .freeOk ∧
    ∀ addr, b.layout.bodyStart ≤ addr → addr < b.layout.bodyEnd →
      checkSingle (blockShadow (prepareFree b q).2.1) addr =
        .bad .useAfterFree := by
  have hlz := hwp.1
  have hpos := hwp.2.1
  have hhi := hwp.2.2
  unfold LiveBlock.bodyEnd at hhi
  have hfree : prepareFree b q =
      (.freeOk, { b with state := .quarantined },
        b.layout.bodyStart :: q) := by
    rw [prepareFree, if_neg (by simp [hsum]), if_neg (by simp [hstate])]
  refine ⟨by rw [hfree], ?_⟩
  intro addr h1 h2
  unfold LiveBlock.bodyEnd at h2
  rw [hfree]
  show checkSingle (blockShadow { b with state := .quarantined }) addr =
    .bad .useAfterFree
  have hsh : blockShadow { b with state := .quarantined } addr = .freed := by
    show (if b.layout.bodyStart - b.layout.leftRedzoneSize ≤ addr ∧
        addr < b.layout.bodyEnd + b.layout.rightRedzoneSize then
        ShadowState.freed else ShadowState.untracked) = .freed
    rw [if_pos (by unfold LiveBlock.bodyEnd; omega)]
  rw [checkSingle, if_neg (by omega), if_neg (by omega), hsh]

/-- Witness for C8: freeing the block with body `[100, 113)` and probing
address 105 of the former body. -/
theorem c8_use_after_free_witness :
    (LiveBlock.wellPlaced ⟨100, 13, 16, 16⟩ ∧
      HeapBlock.state ⟨⟨100, 13, 16, 16⟩, .allocated, true⟩ = .allocated ∧
      HeapBlock.checksumOk ⟨⟨100, 13, 16, 16⟩, .allocated, true⟩ = true) ∧
    (prepareFree ⟨⟨100, 13, 16, 16⟩, .allocated, true⟩ []).1 = .freeOk ∧
    checkSingle
      (blockShadow
        (prepareFree ⟨⟨100, 13, 16, 16⟩, .allocated, true⟩ []).2.1) 105 =
      .bad .useAfterFree := by
  have hwp : LiveBlock.wellPlaced ⟨100, 13, 16, 16⟩ := by
    refine ⟨by decide, by decide, ?_⟩
    show 100 + 13 + 16 < kWildAccessThreshold
    decide
  have h := c8_use_after_free ⟨⟨100, 13, 16, 16⟩, .allocated, true⟩ []
    hwp rfl rfl
  exact ⟨⟨hwp, rfl, rfl⟩, h.1, h.2 105 (by decide) (by decide)⟩

/-- Modelled from the spec: the view of one tracked block taken by the
Corruption Scanner walk (section 4.5): header location, recovered user
size, the recorded allocation and free stack identifiers, and the results
of the magic and checksum validations at scan time. -/
structure ScanBlock where
  headerAddr : Nat
  userSize : Nat
  allocStack : List Nat
  freeStack : List Nat
  magicValid : Bool
  checksumValid : Bool
  deriving DecidableEq

/-- Modelled from the spec: the per-finding block classification of
section 4.5: header-corrupt when the magic is wrong, data-corrupt
otherwise. -/
inductive CorruptKind where
  | dataCorrupt
  | headerCorrupt
  deriving DecidableEq

/-- Modelled from the spec: one finding within a CorruptRange (sections 3
and 4.5): classification, recovered user size, header location, and the
opaque allocation and free stack identifiers. -/
structure Finding where
  kind : CorruptKind
  userSize : Nat
  headerAddr : Nat
  allocStack : List Nat
  freeStack : List Nat
  deriving DecidableEq

/-- A scanned block is corrupt when its magic or checksum check fails. -/
def scanBlockIsCorrupt (b : ScanBlock) : Bool :=
  !b.magicValid || !b.checksumValid

/-- The finding the scanner records for one corrupt block. -/
def mkFinding (b : ScanBlock) : Finding :=
  { kind := if b.magicValid then .dataCorrupt else .headerCorrupt,
    userSize := b.userSize, headerAddr := b.headerAddr,
    allocStack := b.allocStack, freeStack := b.freeStack }

/-- Modelled from the spec: the Corruption Scanner walk (section 4.5): it
applies the checksum and magic checks to every tracked block in walk
order, records a finding for each corrupt block, and merges contiguous
corrupt blocks into one CorruptRange, here represented by its ordered
list of findings. -/
def scanRanges : List ScanBlock → List (List Finding)
  | [] => []
  | b :: rest =>
    let tl := scanRanges rest
    if scanBlockIsCorrupt b then
      match rest.head? with
      | some r =>
        if scanBlockIsCorrupt r then
          match tl with
          | g :: gs => (mkFinding b :: g) :: gs
          | [] => [[mkFinding b]]
        else [mkFinding b] :: tl
      | none => [[mkFinding b]]
    else tl

/-- Modelled from the spec: the heap-is-corrupt verdict attached to an
error report when heap integrity verification on failure is enabled
(sections 4.5 and 6). -/
def heapIsCorrupt (bs : List ScanBlock) : Bool :=
  !(scanRanges bs).isEmpty

/-- A walk over blocks that all validate yields no CorruptRange. -/
theorem scanRanges_all_valid : ∀ bs : List ScanBlock,
    (∀ x ∈ bs, scanBlockIsCorrupt x = false) → scanRanges bs = [] := by
  intro bs
  induction bs with
  | nil => intro _; rfl
  | cons b rest ih =>
    intro h
    have hb := h b (List.mem_cons_self b rest)
    rw [scanRanges]
    simp only [hb]
    exact ih fun x hx => h x (List.mem_cons_of_mem b hx)

/-- A walk in which exactly one block is corrupt yields exactly one
CorruptRange holding exactly that block's finding. -/
theorem scanRanges_single_corrupt :
    ∀ (g1 : List ScanBlock) (b : ScanBlock) (g2 : List ScanBlock),
      (∀ x ∈ g1, scanBlockIsCorrupt x = false) →
      scanBlockIsCorrupt b = true →
      (∀ x ∈ g2, scanBlockIsCorrupt x = false) →
      scanRanges (g1 ++ b :: g2) = [[mkFinding b]] := by
  intro g1
  induction g1 with
  | nil =>
    intro b g2 _ hb hg2
    simp only [List.nil_append]
    cases g2 with
    | nil =>
      rw [scanRanges]
      simp [hb]
    | cons r rest =>
      have hr := hg2 r (List.mem_cons_self r rest)
      have htl : scanRanges (r :: rest) = [] := scanRanges_all_valid _ hg2
      rw [scanRanges, htl]
      simp [hb, hr]
  | cons x xs ih =>
    intro b g2 hg1 hb hg2
    have hx := hg1 x (List.mem_cons_self x xs)
    have hxs : ∀ y ∈ xs, scanBlockIsCorrupt y = false :=
      fun y hy => hg1 y (List.mem_cons_of_mem x hy)
    simp only [List.cons_append]
    rw [scanRanges, ih b g2 hxs hb hg2]
    simp [hx]

/-- Modelled from the spec: flipping one non-essential byte of a live
block's trailer invalidates the stored checksum unless the digest
collides on this trial — a bounded-probability false negative the spec
accepts (sections 4.2, 7 and 8); the magic, the user size, the stack
identifiers and the state are untouched. -/
def flipTrailerByte (collides : Nat → Bool) (t : Nat) (b : ScanBlock) :
    ScanBlock :=
  { b with checksumValid := collides t }

/-- C6: after flipping a non-essential trailer byte of a live block that
recorded a non-empty allocation stack and was never freed, any trial
within the 10-trial bound on which the checksum digest does not collide
makes the triggered scan report a corrupt heap with exactly one
CorruptRange containing exactly one finding: data-corrupt, recovered user
size equal to the original allocation size, non-empty allocation-stack
identifiers, and empty free-stack identifiers. -/
theorem c6_corrupt_heap_scan (collides : Nat → Bool) (t : Nat)
    (b : ScanBlock) (g1 g2 : List ScanBlock)
    (ht : t < 10) (hcoll : collides t = false)
    (hmagic : b.magicValid = true) (halloc : b.allocStack ≠ [])
    (hfree : b.freeStack = [])
    (hg1 : ∀ x ∈ g1, scanBlockIsCorrupt x = false)
    (hg2 : ∀ x ∈ g2, scanBlockIsCorrupt x = false) :
    heapIsCorrupt (g1 ++ flipTrailerByte collides t b :: g2) = true ∧
    scanRanges (g1 ++ flipTrailerByte collides t b :: g2) =
      [[mkFinding (flipTrailerByte collides t b)]] ∧
    (mkFinding (flipTrailerByte collides t b)).kind = .dataCorrupt ∧
    (mkFinding (flipTrailerByte collides t b)).userSize = b.userSize ∧
    (mkFinding (flipTrailerByte collides t b)).allocStack ≠ [] ∧
    (mkFinding (flipTrailerByte collides t b)).freeStack = [] := by
  have hcorrupt : scanBlockIsCorrupt (flipTrailerByte collides t b) =
      true := by
    simp [scanBlockIsCorrupt, flipTrailerByte, hcoll]
  have hscan := scanRanges_single_corrupt g1 _ g2 hg1 hcorrupt hg2
  refine ⟨?_, hscan, ?_, rfl, halloc, hfree⟩
  · rw [heapIsCorrupt, hscan]
    rfl
  · simp [mkFinding, flipTrailerByte, hmagic]

/-- Witness for C6 on the heap holding exactly one block of user size 13
with a two-frame allocation stack, flipped at trial 0 with a digest that
does not collide. -/
theorem c6_corrupt_heap_scan_witness :
    ((0 : Nat) < 10 ∧
      (fun _ : Nat => false) 0 = false ∧
      ScanBlock.magicValid ⟨1000, 13, [7, 8], [], true, true⟩ = true ∧
      ScanBlock.allocStack ⟨1000, 13, [7, 8], [], true, true⟩ ≠ [] ∧
      ScanBlock.freeStack ⟨1000, 13, [7, 8], [], true, true⟩ = []) ∧
    heapIsCorrupt
      [flipTrailerByte (fun _ => false) 0 ⟨1000, 13, [7, 8], [], true,
        true⟩] = true ∧
    scanRanges
      [flipTrailerByte (fun _ => false) 0 ⟨1000, 13, [7, 8], [], true,
        true⟩] =
      [[mkFinding (flipTrailerByte (fun _ => false) 0
        ⟨1000, 13, [7, 8], [], true, true⟩)]] := by
  have h := c6_corrupt_heap_scan (fun _ => false) 0
    ⟨1000, 13, [7, 8], [], true, true⟩ [] [] (by decide) rfl rfl
    (by decide) rfl (by intro x hx; cases hx) (by intro x hx; cases hx)
  exact ⟨⟨by decide, rfl, rfl, by decide, rfl⟩, h.1, h.2.1⟩

/-- The structured view of one block produced by `GetBlockInfo`: the only
field `IsBlockCorrupt` dereferences is `header->magic`. -/
structure BlockInfo where
  headerMagic : Nat
  deriving DecidableEq

/-- The callees of `IsBlockCorrupt` declared outside
syzygy/agent/asan/block_utils.cc: the header-address parser
`GetBlockInfo` (which fails by returning no view), the header magic
sentinel `kBlockHeaderMagic`, and the checksum validator
`BlockChecksumIsValid`.  `IsBlockCorrupt` treats them as opaque, so they
enter here as an environment. -/
structure BlockEnv where
  getBlockInfo : Nat → Option BlockInfo
  kBlockHeaderMagic : Nat
  blockChecksumIsValid : BlockInfo → Bool

/-- `IsBlockCorrupt` from syzygy/agent/asan/block_utils.cc: returns true
when parsing the header address fails, or the header magic differs from
the sentinel, or the recomputed checksum does not match the stored
digest; returns false otherwise.  The C++ out-parameter `block_info`
only surfaces the parsed view and does not affect the verdict, so it is
dropped. -/
def IsBlockCorrupt (env : BlockEnv) (blockHeader : Nat) : Bool :=
  match env.getBlockInfo blockHeader with
  | none => true
  | some info =>
    if info.headerMagic ≠ env.kBlockHeaderMagic then true
    else if !env.blockChecksumIsValid info then true
    else false

/-- C5: `IsBlockCorrupt` returns false exactly when parsing succeeds, the
header magic equals the fixed sentinel and the recomputed checksum
matches; it returns true exactly when at least one of the three fails. -/
theorem c5_is_block_corrupt_iff (env : BlockEnv) (blockHeader : Nat) :
    (IsBlockCorrupt env blockHeader = false ↔
      ∃ info, env.getBlockInfo blockHeader = some info ∧
        info.headerMagic = env.kBlockHeaderMagic ∧
        env.blockChecksumIsValid info = true) ∧
    (IsBlockCorrupt env blockHeader = true ↔
      ¬ ∃ info, env.getBlockInfo blockHeader = some info ∧
        info.headerMagic = env.kBlockHeaderMagic ∧
        env.blockChecksumIsValid info = true) := by
  have hmain : IsBlockCorrupt env blockHeader = false ↔
      ∃ info, env.getBlockInfo blockHeader = some info ∧
        info.headerMagic = env.kBlockHeaderMagic ∧
        env.blockChecksumIsValid info = true := by
    unfold IsBlockCorrupt
    cases hinfo : env.getBlockInfo blockHeader with
    | none => simp [hinfo]
    | some info =>
      by_cases hm : info.headerMagic = env.kBlockHeaderMagic
      · by_cases hc : env.blockChecksumIsValid info = true
        · simp [hinfo, hm, hc]
        · simp only [Bool.not_eq_true] at hc
          simp [hinfo, hm, hc]
      · simp [hinfo, hm]
  refine ⟨hmain, ?_⟩
  rw [← hmain]
  cases h : IsBlockCorrupt env blockHeader <;> simp
